import Mathlib

/-!
Verification of the filtering + aggregation / analytics pipeline of the
EC sales dashboard (src/app.py).

The dashboard is a pandas program.  The embedding below translates the
dataframe pipeline into pure list-processing functions:

* a dataframe is a `List Record` (rows in order);
* boolean-mask filtering (`df[mask]`) is `List.filter`;
* `groupby` on an ordinary (object / datetime) column produces one group
  per distinct key value occurring in the data, keys sorted ascending
  (pandas default `sort=True`);
* `groupby` / `pivot_table` on the *categorical* column `年齢層` (age band,
  produced by `pd.cut`) produces one row for **every** category of the
  dtype, whether observed or not (pandas default `observed=False`); the
  `sum` / `count` of an empty group are 0;
* `sort_values(ascending=False)` guarantees the descending order of the
  sort key but, under its default numpy `quicksort` kind, no particular
  order of tied keys once the array has 16 or more elements (below 16 it
  runs a stable insertion sort); the embedding `sortDesc` fixes one
  concrete tie order, and every theorem proved about it is invariant
  under permuting rows of equal amount;
* float division by zero never raises in pandas; the only case reached by
  this program is `0/0`, whose IEEE result NaN is modelled as `none`;
* `rolling(window=W).mean()` yields NaN (here `none`) for the first `W-1`
  positions (default `min_periods = window`) and the trailing mean after;
* `groupby([pd.Grouper(key=…, freq='M'), col]).size()` keeps only the
  observed (month, col) combinations: the month bins behave like an extra
  grouping level and multi-key group ids are compressed to the observed
  ones; no reindexing over a product happens because no grouping is a
  `Categorical` (pandas `_reindex_output`).
-/

/-- Float division as executed by pandas column arithmetic.  `none` models
the non-finite IEEE result of dividing by zero; in every place this
program divides by zero the numerator is also zero, so `none` always
stands for NaN (`0.0 / 0.0`). -/
def fdiv (n d : ℚ) : Option ℚ := if d = 0 then none else some (n / d)

/-- Insert into a sorted list in front of the first element that is not
strictly smaller.  This is the insertion step of numpy's small-array sort
(stable). -/
def insertLe {α : Type} (le : α → α → Bool) (a : α) : List α → List α
  | [] => [a]
  | b :: l => if le a b then a :: b :: l else b :: insertLe le a l

/-- Stable insertion sort; the algorithm numpy's `quicksort` kind actually
runs on arrays of fewer than 16 elements, and extensionally the stable
sort pandas guarantees for the `mergesort`/`stable` kinds. -/
def sortLe {α : Type} (le : α → α → Bool) : List α → List α
  | [] => []
  | a :: l => insertLe le a (sortLe le l)

/-- Running cumulative sums (pandas `Series.cumsum`), starting from an
accumulator (0 at the top-level call). -/
def cumsum : ℚ → List ℚ → List ℚ
  | _, [] => []
  | acc, x :: xs => (acc + x) :: cumsum (acc + x) xs

/-- One transaction row of the loaded dataframe.  `day` is the date
portion of 購入日 (an ordinal day number), `timeOfDay` its time portion
(ignored by `.dt.date` comparisons), `month` the index of the calendar
month containing `day` (what `strftime('%Y-%m')` and a monthly
`pd.Grouper` group by; consecutive indices across year boundaries). -/
structure Record where
  custId : ℕ
  day : ℕ
  timeOfDay : ℕ
  month : ℕ
  amount : ℚ
  category : String
  region : String
  gender : String
  age : ℕ
  payment : String
deriving DecidableEq

/-- The seven age-band labels of `pd.cut(df['年齢'], bins=[0,20,30,40,50,
60,70,100], labels=…, right=False)`, romanised. -/
def ageLabels : List String :=
  ["<20", "20-30", "31-40", "41-50", "51-60", "61-70", "71+"]

/-- Age band column: `pd.cut(age, bins=[0,20,30,40,50,60,70,100],
right=False)`.  Half-open intervals `[lo, hi)`; the last bin is
`[70, 100)`, and an age outside every bin (age ≥ 100) gets NaN = `none`. -/
def ageBand (a : ℕ) : Option String :=
  if a < 20 then some "<20"
  else if a < 30 then some "20-30"
  else if a < 40 then some "31-40"
  else if a < 50 then some "41-50"
  else if a < 60 then some "51-60"
  else if a < 70 then some "61-70"
  else if a < 100 then some "71+"
  else none

/-- Amount band column: `pd.cut(amount, bins=[0,5000,10000,30000,50000,
100000], right=False)`.  Half-open intervals; the last bin is
`[50000, 100000)`; amounts below 0 or at/above 100000 get NaN = `none`. -/
def amountBand (x : ℚ) : Option String :=
  if x < 0 then none
  else if x < 5000 then some "<5000"
  else if x < 10000 then some "5000-10000"
  else if x < 30000 then some "10000-30000"
  else if x < 50000 then some "30000-50000"
  else if x < 100000 then some ">=50000"
  else none

/-- The sidebar filter state.  `none` in an equality slot models the
'すべて' (all) choice; `dateRange` is the list returned by the date
widget, which mid-interaction may hold fewer than two bounds. -/
structure Filters where
  dateRange : List ℕ
  category : Option String
  region : Option String
  gender : Option String
  ageBand : Option String
  payment : Option String
  amountMin : ℚ
  amountMax : ℚ

/-- Date predicate of the mask built at src/app.py:77: applied only when
two bounds are present, inclusive on both ends, on the date portion. -/
def datePass (dr : List ℕ) (r : Record) : Bool :=
  match dr with
  | [s, e] => decide (s ≤ r.day) && decide (r.day ≤ e)
  | _ => true

/-- Equality predicate of one 'すべて'-guarded selectbox filter. -/
def optPass (sel : Option String) (v : String) : Bool :=
  match sel with
  | none => true
  | some s => v == s

/-- Age-band filter predicate: compares the derived categorical value;
a NaN band (`none`) never equals a selected label, as in pandas. -/
def agePass (sel : Option String) (b : Option String) : Bool :=
  match sel with
  | none => true
  | some s => b == some s

/-- Amount range predicate (inclusive slider bounds, always applied). -/
def amountPass (f : Filters) (r : Record) : Bool :=
  decide (f.amountMin ≤ r.amount) && decide (r.amount ≤ f.amountMax)

/-- src/app.py:76-80 — the date mask is applied only when the widget holds
exactly two values, otherwise the frame is copied unfiltered. -/
def dateStage (f : Filters) (rs : List Record) : List Record :=
  if f.dateRange.length = 2 then rs.filter (datePass f.dateRange) else rs

/-- One 'すべて'-guarded equality filter stage (src/app.py:82-95). -/
def eqStage (sel : Option String) (proj : Record → String)
    (rs : List Record) : List Record :=
  match sel with
  | none => rs
  | some v => rs.filter (fun r => proj r == v)

/-- The age-band equality stage (src/app.py:91-92), comparing against the
derived `ageBand` column. -/
def ageStage (sel : Option String) (rs : List Record) : List Record :=
  match sel with
  | none => rs
  | some v => rs.filter (fun r => ageBand r.age == some v)

/-- The amount-range stage (src/app.py:97-100), always applied. -/
def amountStage (f : Filters) (rs : List Record) : List Record :=
  rs.filter (amountPass f)

/-- The whole filter pipeline producing `df_filtered`
(src/app.py:76-100), stages in source order. -/
def applyFilters (f : Filters) (rs : List Record) : List Record :=
  amountStage f
    (eqStage f.payment (fun r => r.payment)
      (ageStage f.ageBand
        (eqStage f.gender (fun r => r.gender)
          (eqStage f.region (fun r => r.region)
            (eqStage f.category (fun r => r.category)
              (dateStage f rs))))))

/-- The conjunction of all the stage predicates, nested the way the
successive boolean masks compose. -/
def passes (f : Filters) (r : Record) : Bool :=
  amountPass f r &&
    (optPass f.payment r.payment &&
      (agePass f.ageBand (ageBand r.age) &&
        (optPass f.gender r.gender &&
          (optPass f.region r.region &&
            (optPass f.category r.category && datePass f.dateRange r)))))

/-- Sum of the 購入金額 column. -/
def sumAmt (rs : List Record) : ℚ := (rs.map (fun r => r.amount)).sum

/-- Bool order used to sort natural-number group keys. -/
def natLe (a b : ℕ) : Bool := decide (a ≤ b)

/-- Lexicographic comparison of code-point lists, written out so that it
evaluates structurally. -/
def lexLe : List Char → List Char → Bool
  | [], _ => true
  | _ :: _, [] => false
  | c :: cs, d :: ds =>
    if c.toNat < d.toNat then true
    else if d.toNat < c.toNat then false
    else lexLe cs ds

/-- Bool order used to sort string group keys (lexicographic by code
point, the order in which pandas sorts object keys). -/
def strLe (a b : String) : Bool := lexLe a.data b.data

/-- The distinct values of a column, sorted ascending: the group keys a
pandas `groupby` on an ordinary (non-categorical) column produces. -/
def groupKeys {K : Type} [DecidableEq K] (le : K → K → Bool)
    (key : Record → K) (rs : List Record) : List K :=
  sortLe le ((rs.map key).dedup)

/-- src/app.py:352 — `df_filtered.groupby('年齢層')['購入金額']
.agg(['sum','count'])`.  The grouped column is categorical
(`pd.cut`), so with the pandas default `observed=False` every one of the
seven bands yields a row; an unobserved band's row is (sum 0, count 0). -/
def age_distribution (rs : List Record) : List (String × ℚ × ℕ) :=
  ageLabels.map (fun l =>
    let g := rs.filter (fun r => ageBand r.age == some l)
    (l, sumAmt g, g.length))

/-- src/app.py:473 — `df_filtered.groupby('購入カテゴリー')['購入金額']
.sum()`: one row per distinct category present (object dtype). -/
def category_sales (rs : List Record) : List (String × ℚ) :=
  (groupKeys strLe (fun r => r.category) rs).map (fun c =>
    (c, sumAmt (rs.filter (fun r => r.category == c))))

/-- The observed payment methods, sorted: the column axis of the
payment pivots. -/
def paymentKeys (rs : List Record) : List String :=
  groupKeys strLe (fun r => r.payment) rs

/-- src/app.py:611-618 — `pivot_table(values='購入金額', index='年齢層',
columns='支払方法', aggfunc='count', fill_value=0)`.  The categorical
index keeps all seven bands (`observed=False`); `count` of an empty cell
is 0, so 0-filled rows survive the `dropna` step and reach `fill_value`. -/
def age_payment_cross (rs : List Record) : List (String × List ℕ) :=
  ageLabels.map (fun l =>
    (l, (paymentKeys rs).map (fun p =>
      (rs.filter (fun r => ageBand r.age == some l && r.payment == p)).length)))

/-- src/app.py:633-640 — same pivot with the object-dtype index
'購入カテゴリー': only observed categories become rows. -/
def category_payment_cross (rs : List Record) : List (String × List ℕ) :=
  (groupKeys strLe (fun r => r.category) rs).map (fun c =>
    (c, (paymentKeys rs).map (fun p =>
      (rs.filter (fun r => r.category == c && r.payment == p)).length)))

/-- Total of one pivot row (`…cross.sum(axis=1)`). -/
def rowTotal (cells : List ℕ) : ℕ := cells.sum

/-- One cell of `cross.div(cross.sum(axis=1), axis=0) * 100`
(src/app.py:621,643).  A zero row total gives `0/0`, i.e. NaN. -/
def pctCell (tot c : ℕ) : Option ℚ :=
  (fdiv (c : ℚ) (tot : ℚ)).map (fun q => q * 100)

/-- Row-normalisation of a pivot to percentages. -/
def pctRows (t : List (String × List ℕ)) : List (String × List (Option ℚ)) :=
  t.map (fun rc => (rc.1, rc.2.map (pctCell (rowTotal rc.2))))

/-- src/app.py:621 — `age_payment_cross.div(….sum(axis=1), axis=0) * 100`. -/
def age_payment_pct (rs : List Record) : List (String × List (Option ℚ)) :=
  pctRows (age_payment_cross rs)

/-- src/app.py:643 — `category_payment_cross.div(….sum(axis=1), axis=0) * 100`. -/
def category_payment_pct (rs : List Record) : List (String × List (Option ℚ)) :=
  pctRows (category_payment_cross rs)

/-- Bool order on (month, category) pairs, the sort order of the grouped
index. -/
def pairLe (a b : ℕ × String) : Bool :=
  decide (a.1 < b.1) || (decide (a.1 = b.1) && decide (a.2 ≤ b.2))

/-- src/app.py:497-500 — `df_filtered.groupby([pd.Grouper(key='購入日',
freq='M'), '購入カテゴリー']).size()`: one row per **observed** (month,
category) combination (multi-key group ids are compressed to observed
ones and no grouping is categorical, so nothing is zero-filled). -/
def category_time_series (rs : List Record) : List ((ℕ × String) × ℕ) :=
  (sortLe pairLe ((rs.map (fun r => (r.month, r.category))).dedup)).map
    (fun k =>
      (k, (rs.filter (fun r =>
        decide (r.month = k.1) && decide (r.category = k.2))).length))

/-- src/app.py:230 — `df_filtered.groupby('購入日')[['購入金額']].sum()`:
daily buckets, one row per observed day, ascending. -/
def daily_sales (rs : List Record) : List (ℕ × ℚ) :=
  (groupKeys natLe (fun r => r.day) rs).map (fun d =>
    (d, sumAmt (rs.filter (fun r => decide (r.day = d)))))

/-- src/app.py:201 — monthly buckets via `groupby(strftime('%Y-%m'))`:
one row per observed month, ascending ('%Y-%m' strings sort
chronologically). -/
def monthly_sales (rs : List Record) : List (ℕ × ℚ) :=
  (groupKeys natLe (fun r => r.month) rs).map (fun m =>
    (m, sumAmt (rs.filter (fun r => decide (r.month = m)))))

/-- `Series.rolling(window=W).mean()` with the default
`min_periods = window`: NaN (`none`) before the window is full, then the
trailing mean of the latest W values. -/
def movingAvg (W : ℕ) (xs : List ℚ) : List (Option ℚ) :=
  (List.range xs.length).map (fun i =>
    if i + 1 < W then none
    else some (((xs.drop (i + 1 - W)).take W).sum / (W : ℚ)))

/-- src/app.py:231 — the 7-day moving average of the daily series. -/
def daily_ma (rs : List Record) : List (Option ℚ) :=
  movingAvg 7 ((daily_sales rs).map Prod.snd)

/-- src/app.py:202 — the 3-month moving average of the monthly series. -/
def monthly_ma (rs : List Record) : List (Option ℚ) :=
  movingAvg 3 ((monthly_sales rs).map Prod.snd)

/-- src/app.py:529 — `df_filtered.sort_values('購入金額',
ascending=False)` with the default `kind='quicksort'`.  The program
guarantees only that amounts come out descending: numpy's quicksort is a
stable insertion sort below 16 elements but gives no tie-order guarantee
beyond that.  The embedding must pick one concrete order, and picks the
stable descending one (exact for views of fewer than 16 rows); every
theorem below that uses `sortDesc` states a property invariant under
permuting rows of equal amount, so nothing proved here depends on the
chosen tie order. -/
def sortDesc (rs : List Record) : List Record :=
  sortLe (fun a b => decide (b.amount ≤ a.amount)) rs

/-- src/app.py:531 — `total_sales`, summed over the sorted frame. -/
def total_sales (rs : List Record) : ℚ :=
  ((sortDesc rs).map (fun r => r.amount)).sum

/-- src/app.py:530-532 — the 累計売上比率 column:
`cumsum / total_sales * 100` over the descending-sorted rows.  With a
zero total every entry is the NaN of `0/0`, silently. -/
def pareto_shares (rs : List Record) : List (Option ℚ) :=
  (cumsum 0 ((sortDesc rs).map (fun r => r.amount))).map (fun c =>
    (fdiv c (total_sales rs)).map (fun q => q * 100))

/-- One row of an export summary `groupby(k)['購入金額']
.agg(['sum','count','mean'])` (src/app.py:685-688). -/
structure SRow (K : Type) where
  key : K
  sum : ℚ
  count : ℕ
  mean : Option ℚ
deriving DecidableEq

/-- Generic export summary: one row per observed key, carrying the
group's sum, size and mean (the mean of an empty group would be NaN,
i.e. `none`, but groups of an observed key are never empty). -/
def summaryBy {K : Type} [DecidableEq K] (le : K → K → Bool)
    (key : Record → K) (rs : List Record) : List (SRow K) :=
  (groupKeys le key rs).map (fun k =>
    let g := rs.filter (fun r => decide (key r = k))
    ⟨k, sumAmt g, g.length, fdiv (sumAmt g) ((g.length : ℕ) : ℚ)⟩)

/-- src/app.py:685 — 売上サマリー（日次）. -/
def export_daily (rs : List Record) : List (SRow ℕ) :=
  summaryBy natLe (fun r => r.day) rs

/-- src/app.py:686 — 売上サマリー（月次）. -/
def export_monthly (rs : List Record) : List (SRow ℕ) :=
  summaryBy natLe (fun r => r.month) rs

/-- src/app.py:687 — カテゴリー別集計. -/
def export_category (rs : List Record) : List (SRow String) :=
  summaryBy strLe (fun r => r.category) rs

/-- src/app.py:688 — 地域別集計. -/
def export_region (rs : List Record) : List (SRow String) :=
  summaryBy strLe (fun r => r.region) rs

/-- Demonstration record: day 3 (with a nonzero time of day), category A,
age 25, card payment, amount 1000. -/
def rDemoA : Record := ⟨1, 3, 9, 0, 1000, "A", "East", "F", 25, "card"⟩

/-- Demonstration record: day 7, category B, age 30, cash, amount 2000. -/
def rDemoB : Record := ⟨2, 7, 0, 1, 2000, "B", "East", "M", 30, "cash"⟩

/-- Two-row demonstration store. -/
def demoRecs : List Record := [rDemoA, rDemoB]

/-- Narrow filter: days 2-5 and category A only. -/
def fNarrow : Filters := ⟨[2, 5], some "A", none, none, none, none, 0, 100000⟩

/-- Wider filter: days 0-9, no category constraint. -/
def fWide : Filters := ⟨[0, 9], none, none, none, none, none, 0, 100000⟩

/-- A filter whose date widget holds a single bound. -/
def fOneBound : Filters := ⟨[3], none, none, none, none, none, 0, 100000⟩

/-- Records for the segmented series: category A active in month 0 only,
category B in month 1 only. -/
def csRecs : List Record :=
  [⟨1, 0, 0, 0, 10, "A", "E", "F", 25, "card"⟩,
   ⟨2, 31, 0, 1, 20, "B", "E", "F", 30, "card"⟩]

/-- Three records on consecutive days with amounts 100, 300, 200 — the
spec's daily-smoothing scenario. -/
def tsRecs : List Record :=
  [⟨1, 0, 0, 0, 100, "A", "E", "F", 25, "card"⟩,
   ⟨2, 1, 0, 0, 300, "A", "E", "F", 30, "card"⟩,
   ⟨3, 2, 0, 0, 200, "A", "E", "F", 35, "card"⟩]

/-- A single record with amount 0 (zero-total Pareto input). -/
def zRec : Record := ⟨1, 0, 0, 0, 0, "A", "E", "F", 25, "card"⟩

/-! ### Library of facts about the sort and filter embeddings -/

theorem mem_insertLe {α : Type} {le : α → α → Bool} {a x : α} {l : List α} :
    x ∈ insertLe le a l ↔ x = a ∨ x ∈ l := by
  induction l with
  | nil => simp [insertLe]
  | cons b l ih =>
    by_cases h : le a b = true
    · simp only [insertLe, if_pos h, List.mem_cons]
    · simp only [insertLe, if_neg h, List.mem_cons, ih]
      tauto

theorem mem_sortLe {α : Type} {le : α → α → Bool} {x : α} {l : List α} :
    x ∈ sortLe le l ↔ x ∈ l := by
  induction l with
  | nil => simp [sortLe]
  | cons a l ih => simp [sortLe, mem_insertLe, ih]

theorem length_insertLe {α : Type} (le : α → α → Bool) (a : α) (l : List α) :
    (insertLe le a l).length = l.length + 1 := by
  induction l with
  | nil => rfl
  | cons b l ih =>
    by_cases h : le a b = true
    · simp [insertLe, h]
    · simp [insertLe, h, ih]

theorem length_sortLe {α : Type} (le : α → α → Bool) (l : List α) :
    (sortLe le l).length = l.length := by
  induction l with
  | nil => rfl
  | cons a l ih => simp [sortLe, length_insertLe, ih]

theorem eqStage_eq_filter (sel : Option String) (proj : Record → String)
    (rs : List Record) :
    eqStage sel proj rs = rs.filter (fun r => optPass sel (proj r)) := by
  cases sel <;> simp [eqStage, optPass]

theorem ageStage_eq_filter (sel : Option String) (rs : List Record) :
    ageStage sel rs = rs.filter (fun r => agePass sel (ageBand r.age)) := by
  cases sel <;> simp [ageStage, agePass]

theorem datePass_nil (r : Record) : datePass [] r = true := rfl

theorem datePass_single (s : ℕ) (r : Record) : datePass [s] r = true := rfl

theorem datePass_long (s e x : ℕ) (t : List ℕ) (r : Record) :
    datePass (s :: e :: x :: t) r = true := rfl

theorem datePass_pair (s e : ℕ) (r : Record) :
    datePass [s, e] r = (decide (s ≤ r.day) && decide (r.day ≤ e)) := rfl

theorem dateStage_eq_filter (f : Filters) (rs : List Record) :
    dateStage f rs = rs.filter (datePass f.dateRange) := by
  rcases hdr : f.dateRange with _ | ⟨s, _ | ⟨e, _ | ⟨x, t⟩⟩⟩ <;>
    simp only [dateStage, hdr, List.length_cons, List.length_nil]
  · exact (List.filter_eq_self.mpr (fun a _ => datePass_nil a)).symm
  · exact (List.filter_eq_self.mpr (fun a _ => datePass_single s a)).symm
  · norm_num
  · exact (List.filter_eq_self.mpr (fun a _ => datePass_long s e x t a)).symm

theorem applyFilters_eq_filter (f : Filters) (rs : List Record) :
    applyFilters f rs = rs.filter (passes f) := by
  simp only [applyFilters, amountStage, eqStage_eq_filter, ageStage_eq_filter,
    dateStage_eq_filter, List.filter_filter]
  rfl

theorem mem_applyFilters {f : Filters} {r : Record} {rs : List Record} :
    r ∈ applyFilters f rs ↔ r ∈ rs ∧ passes f r = true := by
  rw [applyFilters_eq_filter]
  exact List.mem_filter

/-! ### C6 — single-bound date range is fail-open, two bounds are
inclusive and compare the date portion only -/

/-- C6: when the date widget does not hold exactly two bounds the date
stage passes every record through unchanged (no error, no one-sided
filter); with bounds `[s, e]` it keeps exactly the records whose date
portion `day` satisfies `s ≤ day ∧ day ≤ e` (inclusive on both ends), and
the predicate never looks at the time of day. -/
theorem date_filter_fail_open_inclusive (f : Filters) (rs : List Record) :
    (f.dateRange.length ≠ 2 → dateStage f rs = rs) ∧
    (∀ s e, f.dateRange = [s, e] →
      dateStage f rs =
        rs.filter (fun r => decide (s ≤ r.day) && decide (r.day ≤ e))) ∧
    (∀ (r : Record) (t : ℕ),
      datePass f.dateRange { r with timeOfDay := t } =
        datePass f.dateRange r) := by
  refine ⟨?_, ?_, ?_⟩
  · intro h
    simp [dateStage, h]
  · intro s e he
    rw [dateStage_eq_filter, he]
    exact List.filter_congr (fun a _ => datePass_pair s e a)
  · intro r t
    rcases f.dateRange with _ | ⟨s, _ | ⟨e, _ | ⟨x, tl⟩⟩⟩ <;> simp [datePass]

/-- Witness for C6 at concrete inputs: a one-bound widget filters
nothing, a two-bound widget keeps exactly the in-range records. -/
theorem date_filter_fail_open_inclusive_witness :
    dateStage fOneBound demoRecs = demoRecs ∧
    dateStage fNarrow demoRecs =
      demoRecs.filter (fun r => decide (2 ≤ r.day) && decide (r.day ≤ 5)) ∧
    dateStage fNarrow demoRecs = [rDemoA] :=
  ⟨(date_filter_fail_open_inclusive fOneBound demoRecs).1 (by decide),
   (date_filter_fail_open_inclusive fNarrow demoRecs).2.1 2 5 rfl,
   by decide⟩

/-! ### C9 — derived bands: totality only holds below the top bin edge -/

/-- C9 counterexample: the final bands are not open-ended upward.  An age
of 100 (≥ 71) falls outside the last bin `[70, 100)` and receives no band
at all (NaN), not `71+`; an amount of 100000 (≥ 50000) likewise receives
no band, not `>=50000`.  Ages 99 and amounts 99999 still receive the
final bands. -/
theorem band_right_edge_unbanded :
    ageBand 100 = none ∧ ageBand 99 = some "71+" ∧
    amountBand 100000 = none ∧ amountBand 99999 = some ">=50000" := by
  refine ⟨by decide, by decide, ?_, ?_⟩ <;> decide

/-- C9 amended: the band columns are total on `age ∈ [0, 100)` and
`amount ∈ [0, 100000)`, assigned by half-open intervals; every age in
`[71, 100)` gets `71+` and every amount in `[50000, 100000)` gets
`>=50000`; but at and above the top bin edge (age ≥ 100,
amount ≥ 100000) no band is assigned (`pd.cut` yields NaN). -/
theorem bands_total_on_domain :
    (∀ a : ℕ, a < 100 → (ageBand a).isSome = true) ∧
    (∀ a : ℕ, 100 ≤ a → ageBand a = none) ∧
    (∀ a : ℕ, 71 ≤ a → a < 100 → ageBand a = some "71+") ∧
    (∀ x : ℚ, 0 ≤ x → x < 100000 → (amountBand x).isSome = true) ∧
    (∀ x : ℚ, 100000 ≤ x → amountBand x = none) ∧
    (∀ x : ℚ, 50000 ≤ x → x < 100000 → amountBand x = some ">=50000") := by
  refine ⟨?_, ?_, ?_, ?_, ?_, ?_⟩
  · intro a h
    unfold ageBand
    split_ifs <;> first | rfl | (exfalso; omega)
  · intro a h
    unfold ageBand
    split_ifs <;> first | rfl | (exfalso; omega)
  · intro a h1 h2
    unfold ageBand
    split_ifs <;> first | rfl | (exfalso; omega)
  · intro x h1 h2
    unfold amountBand
    split_ifs <;> first | rfl | (exfalso; linarith)
  · intro x h
    unfold amountBand
    split_ifs <;> first | rfl | (exfalso; linarith)
  · intro x h1 h2
    unfold amountBand
    split_ifs <;> first | rfl | (exfalso; linarith)

/-- Witness for C9: the band totality applied at age 85 and amount
60000. -/
theorem bands_total_on_domain_witness :
    ((71 : ℕ) ≤ 85 ∧ (85 : ℕ) < 100 ∧ ageBand 85 = some "71+") ∧
    ((50000 : ℚ) ≤ 60000 ∧ (60000 : ℚ) < 100000 ∧
      amountBand 60000 = some ">=50000") :=
  ⟨⟨by decide, by decide, bands_total_on_domain.2.2.1 85 (by decide) (by decide)⟩,
   ⟨by decide, by decide,
    bands_total_on_domain.2.2.2.2.2 60000 (by decide) (by decide)⟩⟩

/-! ### C1 — filtering is monotone in predicate permissiveness and
idempotent -/

/-- C1: if every active constraint of `f2` is implied slot-by-slot by the
corresponding constraint of `f1` (`f2` at least as permissive), the
filtered view under `f2` contains every record of the view under `f1`;
and re-applying `f1` to its own output changes nothing (idempotence; in
particular re-running the identical predicate set over the same store is
the same computation and returns the identical result list). -/
theorem filter_monotone_and_idempotent (f1 f2 : Filters) (rs : List Record)
    (hdate : ∀ r : Record,
      datePass f1.dateRange r = true → datePass f2.dateRange r = true)
    (hcat : ∀ v, optPass f1.category v = true → optPass f2.category v = true)
    (hreg : ∀ v, optPass f1.region v = true → optPass f2.region v = true)
    (hgen : ∀ v, optPass f1.gender v = true → optPass f2.gender v = true)
    (hage : ∀ b, agePass f1.ageBand b = true → agePass f2.ageBand b = true)
    (hpay : ∀ v, optPass f1.payment v = true → optPass f2.payment v = true)
    (hamt : ∀ r : Record,
      amountPass f1 r = true → amountPass f2 r = true) :
    (∀ r, r ∈ applyFilters f1 rs → r ∈ applyFilters f2 rs) ∧
    applyFilters f1 (applyFilters f1 rs) = applyFilters f1 rs := by
  constructor
  · intro r hr
    rcases mem_applyFilters.mp hr with ⟨hmem, hp⟩
    refine mem_applyFilters.mpr ⟨hmem, ?_⟩
    simp only [passes, Bool.and_eq_true] at hp ⊢
    obtain ⟨h1, h2, h3, h4, h5, h6, h7⟩ := hp
    exact ⟨hamt r h1, hpay _ h2, hage _ h3, hgen _ h4, hreg _ h5,
      hcat _ h6, hdate r h7⟩
  · rw [applyFilters_eq_filter, applyFilters_eq_filter, List.filter_filter]
    exact List.filter_congr (fun a _ => Bool.and_self (passes f1 a))

/-- Witness for C1: the wider filter (all days 0-9, no category
constraint) admits everything the narrow one (days 2-5, category A)
admits, and the narrow filter is idempotent, on the two-row store. -/
theorem filter_monotone_and_idempotent_witness :
    applyFilters fNarrow (applyFilters fNarrow demoRecs) =
      applyFilters fNarrow demoRecs ∧
    rDemoA ∈ applyFilters fNarrow demoRecs ∧
    rDemoA ∈ applyFilters fWide demoRecs := by
  have h := filter_monotone_and_idempotent fNarrow fWide demoRecs
    (fun r h => by
      simp only [fNarrow, fWide, datePass] at h ⊢
      simp only [Bool.and_eq_true, decide_eq_true_eq] at h ⊢
      omega)
    (fun v _ => by simp [fWide, optPass])
    (fun v h => h) (fun v h => h) (fun b h => h)
    (fun v h => h) (fun r h => h)
  exact ⟨h.2, by decide, h.1 rDemoA (by decide)⟩

/-! ### Group keys of an ordinary-column groupby -/

theorem mem_groupKeys {K : Type} [DecidableEq K] {le : K → K → Bool}
    {key : Record → K} {rs : List Record} {k : K} :
    k ∈ groupKeys le key rs ↔ ∃ r ∈ rs, key r = k := by
  rw [groupKeys, mem_sortLe, List.mem_dedup, List.mem_map]

theorem groupKeys_filter_pos {K : Type} [DecidableEq K] {le : K → K → Bool}
    {key : Record → K} {rs : List Record} {k : K}
    (h : k ∈ groupKeys le key rs) :
    0 < (rs.filter (fun r => decide (key r = k))).length := by
  rcases mem_groupKeys.mp h with ⟨r, hr, hk⟩
  exact List.length_pos_of_mem
    (List.mem_filter.mpr ⟨hr, by simp [hk]⟩)

/-! ### C2 — single-key aggregation: row per present key only for
object-dtype keys; the categorical age band emits all seven rows -/

/-- C2 counterexample: in a view holding a single record aged 25 (band
`20-30`), the age-band aggregation still emits a row for the absent band
`<20` — zero-filled, not absent — and in fact emits all seven band rows,
more than the one distinct band value present. -/
theorem age_distribution_absent_band_row :
    ageBand rDemoA.age = some "20-30" ∧
    ("<20", (0 : ℚ), (0 : ℕ)) ∈ age_distribution [rDemoA] ∧
    (age_distribution [rDemoA]).length = 7 := by
  refine ⟨by decide, by decide, by decide⟩

/-- C2 amended: aggregation keyed on the object-dtype category column
emits exactly one row per distinct key value present in the view (keys
absent yield no row), but the aggregation keyed on the *categorical* age
band emits a row for every one of the seven bands, and a band with no
records in the view gets an explicit zero row (sum 0, count 0), so that
row count can exceed the number of distinct band values present. -/
theorem single_key_agg_row_counts (rs : List Record) :
    ((category_sales rs).length = ((rs.map (fun r => r.category)).dedup).length) ∧
    (∀ c sc, (c, sc) ∈ category_sales rs → ∃ r ∈ rs, r.category = c) ∧
    ((age_distribution rs).length = ageLabels.length) ∧
    (∀ l, l ∈ ageLabels → (∀ r ∈ rs, ageBand r.age ≠ some l) →
      (l, (0 : ℚ), (0 : ℕ)) ∈ age_distribution rs) := by
  refine ⟨?_, ?_, ?_, ?_⟩
  · rw [category_sales, List.length_map, groupKeys, length_sortLe]
  · intro c sc hm
    rcases List.mem_map.mp hm with ⟨k, hk, he⟩
    have : k = c := congrArg Prod.fst he
    subst this
    exact mem_groupKeys.mp hk
  · rw [age_distribution, List.length_map]
  · intro l hl habs
    have hg : rs.filter (fun r => ageBand r.age == some l) = [] := by
      refine List.filter_eq_nil_iff.mpr ?_
      intro r hr
      simp [habs r hr]
    refine List.mem_map.mpr ⟨l, hl, ?_⟩
    simp [hg, sumAmt]

/-- Witness for C2: on the two-record store (categories A and B,
bands `20-30` and `31-40`), the category aggregation has exactly the two
present rows while the band `<20`, absent from the store, still gets its
zero row. -/
theorem single_key_agg_row_counts_witness :
    (category_sales demoRecs).length = 2 ∧
    ("<20", (0 : ℚ), (0 : ℕ)) ∈ age_distribution demoRecs :=
  ⟨(single_key_agg_row_counts demoRecs).1.trans (by decide),
   (single_key_agg_row_counts demoRecs).2.2.2 "<20" (by decide) (by decide)⟩

/-! ### C10 — export summaries: mean = sum / count and positive counts -/

theorem summaryBy_row_ok {K : Type} [DecidableEq K] (le : K → K → Bool)
    (key : Record → K) (rs : List Record) :
    ∀ row ∈ summaryBy le key rs,
      0 < row.count ∧ row.mean = some (row.sum / (row.count : ℚ)) := by
  intro row hrow
  rcases List.mem_map.mp hrow with ⟨k, hk, he⟩
  have hpos := @groupKeys_filter_pos K _ le key rs k hk
  subst he
  refine ⟨hpos, ?_⟩
  have hne : (((rs.filter (fun r => decide (key r = k))).length : ℕ) : ℚ) ≠ 0 := by
    exact_mod_cast Nat.pos_iff_ne_zero.mp hpos
  simp [fdiv, hne]

/-- C10: in each of the four export summaries (daily, monthly, category,
region) every output row has a strictly positive count — a group row
exists only when at least one record contributed — and its mean equals
its sum divided by its count. -/
theorem export_summary_mean_count (rs : List Record) :
    (∀ row ∈ export_daily rs,
      0 < row.count ∧ row.mean = some (row.sum / (row.count : ℚ))) ∧
    (∀ row ∈ export_monthly rs,
      0 < row.count ∧ row.mean = some (row.sum / (row.count : ℚ))) ∧
    (∀ row ∈ export_category rs,
      0 < row.count ∧ row.mean = some (row.sum / (row.count : ℚ))) ∧
    (∀ row ∈ export_region rs,
      0 < row.count ∧ row.mean = some (row.sum / (row.count : ℚ))) :=
  ⟨summaryBy_row_ok natLe (fun r => r.day) rs,
   summaryBy_row_ok natLe (fun r => r.month) rs,
   summaryBy_row_ok strLe (fun r => r.category) rs,
   summaryBy_row_ok strLe (fun r => r.region) rs⟩

/-- Witness for C10: the first row of the daily export summary of the
three-day store is day 0 with sum 100, count 1, mean 100, and the claim
instance holds for it. -/
theorem export_summary_mean_count_witness :
    (⟨0, 100, 1, some 100⟩ : SRow ℕ) ∈ export_daily tsRecs ∧
    (0 < (1 : ℕ) ∧ (some (100 : ℚ)) = some ((100 : ℚ) / ((1 : ℕ) : ℚ))) := by
  have hkeys : groupKeys natLe (fun r => r.day) tsRecs = [0, 1, 2] := by decide
  have hmem : (⟨0, 100, 1, some 100⟩ : SRow ℕ) ∈ export_daily tsRecs := by
    rw [export_daily, summaryBy, hkeys]
    norm_num [tsRecs, sumAmt, fdiv]
  exact ⟨hmem, (export_summary_mean_count tsRecs).1 _ hmem⟩

/-! ### C3 — percentage-normalised pivot rows -/

theorem map_const_replicate {α β : Type} (b : β) (l : List α) :
    l.map (fun _ => b) = List.replicate l.length b := by
  induction l with
  | nil => rfl
  | cons x l ih => simp [ih, List.replicate_succ]

theorem sum_map_div_mul (cells : List ℕ) (t : ℚ) :
    (cells.map (fun (c : ℕ) => (c : ℚ) / t * 100)).sum = (cells.sum : ℚ) / t * 100 := by
  induction cells with
  | nil => simp
  | cons c cs ih =>
    simp only [List.map_cons, List.sum_cons, ih, Nat.cast_add]
    ring

theorem pctRows_row_ok (t : List (String × List ℕ)) (l : String)
    (cells : List ℕ) (h : (l, cells) ∈ t) :
    (rowTotal cells ≠ 0 →
      (l, cells.map (fun (c : ℕ) =>
          some ((c : ℚ) / (rowTotal cells : ℚ) * 100))) ∈ pctRows t ∧
      (cells.map (fun (c : ℕ) =>
          (c : ℚ) / (rowTotal cells : ℚ) * 100)).sum = 100) ∧
    (rowTotal cells = 0 →
      (l, List.replicate cells.length (none : Option ℚ)) ∈ pctRows t) := by
  constructor
  · intro ht
    have htq : ((rowTotal cells : ℕ) : ℚ) ≠ 0 := by exact_mod_cast ht
    constructor
    · have hmap : cells.map (pctCell (rowTotal cells)) =
          cells.map (fun (c : ℕ) =>
            some ((c : ℚ) / (rowTotal cells : ℚ) * 100)) := by
        refine List.map_congr_left ?_
        intro c _
        simp [pctCell, fdiv, htq]
      have hm : (l, cells.map (pctCell (rowTotal cells))) ∈ pctRows t := by
        unfold pctRows
        exact List.mem_map.mpr ⟨(l, cells), h, rfl⟩
      exact hmap ▸ hm
    · rw [sum_map_div_mul cells ((rowTotal cells : ℕ) : ℚ)]
      unfold rowTotal at htq ⊢
      rw [div_self htq, one_mul]
  · intro ht
    have hmap : cells.map (pctCell (rowTotal cells)) =
        List.replicate cells.length (none : Option ℚ) := by
      rw [show cells.map (pctCell (rowTotal cells)) =
            cells.map (fun _ => (none : Option ℚ)) from
          List.map_congr_left (fun c _ => by simp [pctCell, fdiv, ht]),
        map_const_replicate]
    have hm : (l, cells.map (pctCell (rowTotal cells))) ∈ pctRows t := by
      unfold pctRows
      exact List.mem_map.mpr ⟨(l, cells), h, rfl⟩
    exact hmap ▸ hm

/-- C3 counterexample: on a store holding one record (age 25, payment
card), the categorical age-band pivot keeps a row for the unobserved band
`<20` with cell total zero, and percentage normalisation turns that row's
cell into NaN (`none`) by computing `0/0` — not into `0`, and a division
by zero does occur.  The full computed table is shown. -/
theorem age_payment_pct_zero_row_nan :
    age_payment_pct [rDemoA] =
      [("<20", [none]), ("20-30", [some 100]), ("31-40", [none]),
       ("41-50", [none]), ("51-60", [none]), ("61-70", [none]),
       ("71+", [none])] ∧
    ("<20", [(0 : ℕ)]) ∈ age_payment_cross [rDemoA] := by
  have hcross : age_payment_cross [rDemoA] =
      [("<20", [0]), ("20-30", [1]), ("31-40", [0]), ("41-50", [0]),
       ("51-60", [0]), ("61-70", [0]), ("71+", [0])] := by decide
  constructor
  · rw [age_payment_pct, hcross]
    norm_num [pctRows, rowTotal, pctCell, fdiv]
  · rw [hcross]
    decide

/-- C3 amended: in both payment pivots, every row whose cell total is
nonzero has cells equal to `raw / total * 100`, and these sum to exactly
100; but a row whose cell total is zero (which occurs for every age band
absent from the view, since the categorical pivot keeps all seven bands)
has all its cells equal to the NaN of the division `0/0` — not `0`. -/
theorem pct_rows_sum_100_or_nan (rs : List Record) (l : String)
    (cells : List ℕ) :
    ((l, cells) ∈ age_payment_cross rs →
      (rowTotal cells ≠ 0 →
        (l, cells.map (fun (c : ℕ) =>
            some ((c : ℚ) / (rowTotal cells : ℚ) * 100)))
            ∈ age_payment_pct rs ∧
        (cells.map (fun (c : ℕ) =>
            (c : ℚ) / (rowTotal cells : ℚ) * 100)).sum = 100) ∧
      (rowTotal cells = 0 →
        (l, List.replicate cells.length (none : Option ℚ))
            ∈ age_payment_pct rs)) ∧
    ((l, cells) ∈ category_payment_cross rs →
      (rowTotal cells ≠ 0 →
        (l, cells.map (fun (c : ℕ) =>
            some ((c : ℚ) / (rowTotal cells : ℚ) * 100)))
            ∈ category_payment_pct rs ∧
        (cells.map (fun (c : ℕ) =>
            (c : ℚ) / (rowTotal cells : ℚ) * 100)).sum = 100) ∧
      (rowTotal cells = 0 →
        (l, List.replicate cells.length (none : Option ℚ))
            ∈ category_payment_pct rs)) := by
  constructor
  · intro h
    rw [age_payment_pct]
    exact pctRows_row_ok _ l cells h
  · intro h
    rw [category_payment_pct]
    exact pctRows_row_ok _ l cells h

/-- Witness for C3: on the two-record store (one card payment in band
`20-30`, one cash payment in band `31-40`) the `20-30` row has cells
`[1, 0]`, total 1, and normalises to values summing to 100, while the
absent band `<20` row normalises to two NaN cells. -/
theorem pct_rows_sum_100_or_nan_witness :
    (("20-30",
        ([1, 0] : List ℕ).map
          (fun (c : ℕ) => some ((c : ℚ) / (rowTotal [1, 0] : ℚ) * 100)))
        ∈ age_payment_pct demoRecs ∧
      (([1, 0] : List ℕ).map
          (fun (c : ℕ) => (c : ℚ) / (rowTotal [1, 0] : ℚ) * 100)).sum = 100) ∧
    ("<20", List.replicate 2 (none : Option ℚ)) ∈ age_payment_pct demoRecs := by
  have h1 : ("20-30", [(1 : ℕ), 0]) ∈ age_payment_cross demoRecs := by decide
  have h2 : ("<20", [(0 : ℕ), 0]) ∈ age_payment_cross demoRecs := by decide
  refine ⟨((pct_rows_sum_100_or_nan demoRecs "20-30" [1, 0]).1 h1).1 (by decide), ?_⟩
  exact ((pct_rows_sum_100_or_nan demoRecs "<20" [0, 0]).1 h2).2 (by decide)

/-! ### C7 — category-segmented monthly series holds observed
(month, category) combinations only -/

/-- C7 counterexample: with category A active only in month 0 and
category B only in month 1, the segmented series has exactly the two
observed rows.  The combination (month 0, B) — although month 0 does have
records of another category and B does have records in another month —
is absent altogether, not present as a zero row. -/
theorem category_time_series_no_zero_fill :
    category_time_series csRecs = [((0, "A"), 1), ((1, "B"), 1)] ∧
    ((0, "B"), (0 : ℕ)) ∉ category_time_series csRecs := by
  exact ⟨by decide, by decide⟩

/-- C7 amended: a (month, category) pair appears in the segmented series
exactly when some record of the view carries it, always with a strictly
positive count; combinations with no matching records are absent — there
is no zero-filling, also when the same month has records of other
categories — and months with no records at all contribute no rows. -/
theorem category_time_series_observed_rows (rs : List Record)
    (p : ℕ × String) :
    (∀ n, (p, n) ∈ category_time_series rs → 0 < n) ∧
    ((∃ n, (p, n) ∈ category_time_series rs) ↔
      ∃ r ∈ rs, r.month = p.1 ∧ r.category = p.2) := by
  obtain ⟨pm, pc⟩ := p
  constructor
  · intro n hm
    rcases List.mem_map.mp hm with ⟨k, hk, he⟩
    have hkp : k = (pm, pc) := congrArg Prod.fst he
    subst hkp
    have hn : (rs.filter (fun r =>
        decide (r.month = pm) && decide (r.category = pc))).length = n :=
      congrArg Prod.snd he
    rcases List.mem_map.mp (List.mem_dedup.mp (mem_sortLe.mp hk)) with
      ⟨r, hr, hrk⟩
    have h1 : r.month = pm := congrArg Prod.fst hrk
    have h2 : r.category = pc := congrArg Prod.snd hrk
    have hrf : r ∈ rs.filter (fun r =>
        decide (r.month = pm) && decide (r.category = pc)) :=
      List.mem_filter.mpr ⟨hr, by simp [h1, h2]⟩
    rw [← hn]
    exact List.length_pos_of_mem hrf
  · constructor
    · rintro ⟨n, hm⟩
      rcases List.mem_map.mp hm with ⟨k, hk, he⟩
      have hkp : k = (pm, pc) := congrArg Prod.fst he
      subst hkp
      rcases List.mem_map.mp (List.mem_dedup.mp (mem_sortLe.mp hk)) with
        ⟨r, hr, hrk⟩
      exact ⟨r, hr, congrArg Prod.fst hrk, congrArg Prod.snd hrk⟩
    · rintro ⟨r, hr, h1, h2⟩
      have hk : (pm, pc) ∈
          sortLe pairLe ((rs.map (fun r => (r.month, r.category))).dedup) := by
        rw [mem_sortLe, List.mem_dedup]
        exact List.mem_map.mpr ⟨r, hr, by rw [h1, h2]⟩
      exact ⟨_, List.mem_map.mpr ⟨(pm, pc), hk, rfl⟩⟩

/-- Witness for C7: the observed pair (month 0, A) has the positive count
1 and a matching record exists. -/
theorem category_time_series_observed_rows_witness :
    ((0, "A"), (1 : ℕ)) ∈ category_time_series csRecs ∧
    0 < (1 : ℕ) ∧
    (∃ r ∈ csRecs, r.month = (0, "A").1 ∧ r.category = (0, "A").2) := by
  have hm : ((0, "A"), (1 : ℕ)) ∈ category_time_series csRecs := by decide
  exact ⟨hm, (category_time_series_observed_rows csRecs (0, "A")).1 1 hm,
    (category_time_series_observed_rows csRecs (0, "A")).2.mp ⟨1, hm⟩⟩

/-! ### C4 — trailing moving averages -/

theorem movingAvg_getD (W : ℕ) (xs : List ℚ) (i : ℕ) (h : i < xs.length)
    (d : Option ℚ) :
    (movingAvg W xs).getD i d =
      if i + 1 < W then none
      else some (((xs.drop (i + 1 - W)).take W).sum / (W : ℚ)) := by
  rw [movingAvg, List.getD_eq_getElem?_getD, List.getElem?_map,
    List.getElem?_range h]
  rfl

theorem take_drop_sum_eq (xs : List ℚ) (s : ℕ) :
    ∀ W : ℕ, s + W ≤ xs.length →
      ((xs.drop s).take W).sum =
        ((List.range W).map (fun j => xs.getD (s + j) 0)).sum := by
  intro W
  induction W with
  | zero => simp
  | succ W ih =>
    intro hW
    rw [List.range_succ, List.map_append, List.sum_append, List.take_succ,
      List.sum_append, ih (by omega)]
    have hd : (xs.drop s)[W]? = some (xs.getD (s + W) 0) := by
      rw [List.getElem?_drop, List.getElem?_eq_getElem (by omega),
        List.getD_eq_getElem?_getD, List.getElem?_eq_getElem (by omega)]
      rfl
    rw [hd]
    simp

/-- C4: the smoothed series of window `W` carries the explicit no-value
marker (NaN, `none`) at every index `i` with `i + 1 < W` — not zero and
not an error — and at every later index the mean of the `W` raw values at
indices `i-W+1 .. i`; the daily pipeline instantiates `W = 7` and the
monthly pipeline `W = 3`; and on the spec's scenario of daily raw values
100, 300, 200 with `W = 2` the smoothed column is
`[no-value, 200, 250]`. -/
theorem moving_average_window :
    (∀ (xs : List ℚ) (W i : ℕ), 0 < W → i < xs.length →
      ((i + 1 < W → (movingAvg W xs).getD i (some 0) = none) ∧
       (W ≤ i + 1 →
         (movingAvg W xs).getD i (some 0) =
           some ((((List.range W).map
             (fun j => xs.getD (i + 1 - W + j) 0)).sum) / (W : ℚ))))) ∧
    (∀ rs, daily_ma rs = movingAvg 7 ((daily_sales rs).map Prod.snd) ∧
      monthly_ma rs = movingAvg 3 ((monthly_sales rs).map Prod.snd)) ∧
    movingAvg 2 ((daily_sales tsRecs).map Prod.snd) =
      [none, some 200, some 250] := by
  refine ⟨?_, fun rs => ⟨rfl, rfl⟩, ?_⟩
  · intro xs W i hW h
    constructor
    · intro hi
      rw [movingAvg_getD W xs i h, if_pos hi]
    · intro hi
      rw [movingAvg_getD W xs i h, if_neg (by omega),
        take_drop_sum_eq xs (i + 1 - W) W (by omega)]
  · have hkeys : groupKeys natLe (fun r => r.day) tsRecs = [0, 1, 2] := by
      decide
    have hds : (daily_sales tsRecs).map Prod.snd = [100, 300, 200] := by
      rw [daily_sales, hkeys]
      norm_num [tsRecs, sumAmt]
    rw [hds]
    norm_num [movingAvg, List.range_succ]

/-- Witness for C4: the window property applied to the raw values
100, 300, 200 with `W = 2`, at index 0 (no value) and index 2 (mean of
the last two buckets). -/
theorem moving_average_window_witness :
    0 < 2 ∧ (0 : ℕ) + 1 < 2 ∧ 2 ≤ (2 : ℕ) + 1 ∧
    (movingAvg 2 [(100 : ℚ), 300, 200]).getD 0 (some 0) = none ∧
    (movingAvg 2 [(100 : ℚ), 300, 200]).getD 2 (some 0) =
      some ((((List.range 2).map
        (fun j => ([(100 : ℚ), 300, 200]).getD (2 + 1 - 2 + j) 0)).sum)
          / (2 : ℚ)) := by
  refine ⟨by norm_num, by norm_num, by norm_num, ?_, ?_⟩
  · exact (moving_average_window.1 [100, 300, 200] 2 0 (by norm_num)
      (by norm_num)).1 (by norm_num)
  · exact (moving_average_window.1 [100, 300, 200] 2 2 (by norm_num)
      (by norm_num)).2 (by norm_num)

/-! ### C8 — Pareto cumulative share with a zero total -/

theorem cumsum_nil (acc : ℚ) : cumsum acc [] = [] := rfl

theorem cumsum_cons (acc x : ℚ) (xs : List ℚ) :
    cumsum acc (x :: xs) = (acc + x) :: cumsum (acc + x) xs := rfl

theorem length_cumsum (acc : ℚ) (xs : List ℚ) :
    (cumsum acc xs).length = xs.length := by
  induction xs generalizing acc with
  | nil => rfl
  | cons x xs ih => simp [cumsum_cons, ih]

/-- C8 counterexample: on the one-record view with amount 0 the total is
zero and the cumulative-share column the code writes is the single NaN
produced by `0/0` — emitted silently into the derived table, with no
distinct signal to the caller. -/
theorem pareto_zero_total_nan :
    total_sales [zRec] = 0 ∧ pareto_shares [zRec] = [none] := by
  have h : total_sales [zRec] = 0 := by
    norm_num [total_sales, sortDesc, sortLe, insertLe, zRec, List.sum_cons]
  refine ⟨h, ?_⟩
  have hs : sortDesc [zRec] = [zRec] := by decide
  rw [pareto_shares, hs, h]
  norm_num [zRec, cumsum_cons, cumsum_nil, fdiv]

/-- C8 amended: whenever every amount of the view is zero (so the total
is zero — in particular for a nonempty all-zero view), the code computes
`0/0` for every row: the whole cumulative-share column consists of NaN
values produced silently; nothing else distinguishes the degenerate case
for the caller, and an empty view yields an empty column. -/
theorem pareto_zero_total_all_nan (rs : List Record)
    (hz : ∀ r ∈ rs, r.amount = 0) :
    total_sales rs = 0 ∧
    pareto_shares rs = List.replicate rs.length (none : Option ℚ) := by
  have hamts : ∀ x ∈ (sortDesc rs).map (fun r => r.amount), x = 0 := by
    intro x hx
    rcases List.mem_map.mp hx with ⟨r, hr, rfl⟩
    exact hz r (mem_sortLe.mp hr)
  have htot : total_sales rs = 0 := List.sum_eq_zero hamts
  refine ⟨htot, ?_⟩
  have hmap : (cumsum 0 ((sortDesc rs).map (fun r => r.amount))).map
      (fun c => (fdiv c (total_sales rs)).map (fun q => q * 100)) =
      (cumsum 0 ((sortDesc rs).map (fun r => r.amount))).map
        (fun _ => (none : Option ℚ)) :=
    List.map_congr_left (fun c _ => by simp [fdiv, htot])
  rw [pareto_shares, hmap, map_const_replicate, length_cumsum,
    List.length_map, sortDesc, length_sortLe]

/-- Witness for C8: the all-zero hypothesis holds for the one-record
store with amount 0, and the theorem instantiates to the NaN column. -/
theorem pareto_zero_total_all_nan_witness :
    total_sales [zRec] = 0 ∧
    pareto_shares [zRec] = List.replicate 1 (none : Option ℚ) :=
  pareto_zero_total_all_nan [zRec] (by decide)
